import Mathlib

/-!
# Verification of the brokerage-account ledger (`accounts.py`)

A shallow embedding of the `Account` ledger: money amounts and prices are
modelled as `ℚ` (the source uses Python floats with exact small constants),
Python dictionaries as association lists with the source's `get` / `[]=` /
`pop` semantics, and exceptions as an `Except` result paired with the
account state after the call — faithful because every `raise` in the source
occurs before any field mutation of the operation.  Timestamps and
transaction ids are external inputs to each operation (the source draws
them from the clock and `uuid4`).
-/

/-- The module-level exception taxonomy of `accounts.py`. -/
inductive Err where
  | invalidTransaction
  | insufficientFunds
  | insufficientShares
  | unknownSymbol
deriving DecidableEq, Repr

/-- `get_share_price`: fixed prices for AAPL/TSLA/GOOGL, `UnknownSymbolError`
otherwise. -/
def get_share_price (symbol : String) : Except Err ℚ :=
  if symbol == "AAPL" then Except.ok 150
  else if symbol == "TSLA" then Except.ok 700
  else if symbol == "GOOGL" then Except.ok 2800
  else Except.error Err.unknownSymbol

/-- The frozen `Transaction` dataclass. -/
structure Transaction where
  tx_id : String
  timestamp : Int
  type : String
  symbol : Option String
  quantity : Option Int
  price : Option ℚ
  cash_delta : ℚ
  holdings_delta : List (String × Int)
  note : Option String
deriving DecidableEq, Repr

/-- `d.get(k, 0)` on a Python dict modelled as an association list. -/
def dictGet (d : List (String × Int)) (k : String) : Int :=
  match d.find? (fun p => p.1 == k) with
  | some p => p.2
  | none => 0

/-- `k in d` on a Python dict. -/
def dictMem (d : List (String × Int)) (k : String) : Bool :=
  d.any (fun p => p.1 == k)

/-- `d[k] = v` on a Python dict: replace in place when the key is present,
append otherwise. -/
def dictSet (d : List (String × Int)) (k : String) (v : Int) : List (String × Int) :=
  if dictMem d k then d.map (fun p => if p.1 == k then (k, v) else p)
  else d ++ [(k, v)]

/-- `d.pop(k, None)` on a Python dict (the value is discarded in the source). -/
def dictPop (d : List (String × Int)) (k : String) : List (String × Int) :=
  d.filter (fun p => p.1 != k)

/-- The mutable state of the `Account` class (the lock is not part of the
functional state). -/
structure Account where
  account_id : String
  owner : Option String
  initial_deposit : ℚ
  cash_balance : ℚ
  holdings : List (String × Int)
  transactions : List Transaction
deriving DecidableEq, Repr

/-- `Account._record_transaction`: build the immutable record and append it. -/
def Account.record_transaction (a : Account) (type : String) (cash_delta : ℚ)
    (holdings_delta : List (String × Int)) (symbol : Option String)
    (quantity : Option Int) (price : Option ℚ) (note : Option String)
    (t : Int) (txid : String) : Transaction × Account :=
  let tx : Transaction :=
    { tx_id := txid, timestamp := t, type := type, symbol := symbol,
      quantity := quantity, price := price, cash_delta := cash_delta,
      holdings_delta := holdings_delta, note := note }
  (tx, { a with transactions := a.transactions ++ [tx] })

/-- `Account._count_deposits`. -/
def countDeposits (a : Account) : Nat :=
  (a.transactions.filter (fun tx => tx.type == "deposit")).length

/-- `Account.__init__`: reject a negative initial deposit; when it is
positive, record a synthetic "Initial deposit" transaction, credit the cash
balance and set the `initial_deposit` baseline. -/
def Account.create (account_id : String) (owner : Option String)
    (initial_deposit : ℚ) (t : Int) (txid : String) : Except Err Account :=
  if initial_deposit < 0 then Except.error Err.invalidTransaction
  else
    let a : Account :=
      { account_id := account_id, owner := owner, initial_deposit := 0,
        cash_balance := 0, holdings := [], transactions := [] }
    if 0 < initial_deposit then
      let ra := a.record_transaction "deposit" initial_deposit [] none none none
        (some "Initial deposit") t txid
      Except.ok { ra.2 with cash_balance := ra.2.cash_balance + initial_deposit,
                            initial_deposit := initial_deposit }
    else Except.ok a

/-- `Account.deposit`: validate the amount, credit cash, record the
transaction, then set the `initial_deposit` baseline when it is still 0 and
this is the only deposit-kind transaction on record. -/
def Account.deposit (a : Account) (amount : ℚ) (note : Option String)
    (t : Int) (txid : String) : Except Err Transaction × Account :=
  if amount ≤ 0 then (Except.error Err.invalidTransaction, a)
  else
    let a1 := { a with cash_balance := a.cash_balance + amount }
    let ra := a1.record_transaction "deposit" amount [] none none none note t txid
    let a2 := ra.2
    let a3 := if a2.initial_deposit = 0 ∧ countDeposits a2 = 1 then
        { a2 with initial_deposit := amount }
      else a2
    (Except.ok ra.1, a3)

/-- `Account.withdraw`: validate the amount, reject an overdraft with
`InsufficientFundsError`, debit cash and record the transaction. -/
def Account.withdraw (a : Account) (amount : ℚ) (note : Option String)
    (t : Int) (txid : String) : Except Err Transaction × Account :=
  if amount ≤ 0 then (Except.error Err.invalidTransaction, a)
  else if a.cash_balance - amount < 0 then (Except.error Err.insufficientFunds, a)
  else
    let a1 := { a with cash_balance := a.cash_balance - amount }
    let ra := a1.record_transaction "withdraw" (-amount) [] none none none note t txid
    (Except.ok ra.1, ra.2)

/-- `Account.buy`: validate the quantity, resolve the execution price
(caller-supplied or oracle), reject a negative price and an overdraft,
then debit cash, credit holdings and record the transaction. -/
def Account.buy (a : Account) (symbol : String) (quantity : Int)
    (price : Option ℚ) (note : Option String) (t : Int) (txid : String) :
    Except Err Transaction × Account :=
  if quantity ≤ 0 then (Except.error Err.invalidTransaction, a)
  else
    match (match price with | some p => Except.ok p | none => get_share_price symbol) with
    | Except.error e => (Except.error e, a)
    | Except.ok exec_price =>
      if exec_price < 0 then (Except.error Err.invalidTransaction, a)
      else
        let cost := exec_price * (quantity : ℚ)
        if a.cash_balance - cost < 0 then (Except.error Err.insufficientFunds, a)
        else
          let a1 := { a with
            cash_balance := a.cash_balance - cost,
            holdings := dictSet a.holdings symbol (dictGet a.holdings symbol + quantity) }
          let ra := a1.record_transaction "buy" (-cost) [(symbol, quantity)]
            (some symbol) (some quantity) (some exec_price) note t txid
          (Except.ok ra.1, ra.2)

/-- `Account.sell`: validate the quantity, reject an oversell with
`InsufficientSharesError`, resolve the execution price, reject a negative
price, credit cash, reduce the holding (removing the entry at zero) and
record the transaction. -/
def Account.sell (a : Account) (symbol : String) (quantity : Int)
    (price : Option ℚ) (note : Option String) (t : Int) (txid : String) :
    Except Err Transaction × Account :=
  if quantity ≤ 0 then (Except.error Err.invalidTransaction, a)
  else
    let current_shares := dictGet a.holdings symbol
    if current_shares - quantity < 0 then (Except.error Err.insufficientShares, a)
    else
      match (match price with | some p => Except.ok p | none => get_share_price symbol) with
      | Except.error e => (Except.error e, a)
      | Except.ok exec_price =>
        if exec_price < 0 then (Except.error Err.invalidTransaction, a)
        else
          let proceeds := exec_price * (quantity : ℚ)
          let new_shares := current_shares - quantity
          let a1 := { a with
            cash_balance := a.cash_balance + proceeds,
            holdings := if new_shares = 0 then dictPop a.holdings symbol
                        else dictSet a.holdings symbol new_shares }
          let ra := a1.record_transaction "sell" proceeds [(symbol, -quantity)]
            (some symbol) (some quantity) (some exec_price) note t txid
          (Except.ok ra.1, ra.2)

/-- The accumulating loop of `Account.get_portfolio_value`. -/
def portfolioLoop (provider : String → Except Err ℚ) :
    List (String × Int) → ℚ → Except Err ℚ
  | [], total => Except.ok total
  | p :: rest, total =>
    match provider p.1 with
    | Except.error e => Except.error e
    | Except.ok price => portfolioLoop provider rest (total + price * (p.2 : ℚ))

/-- `Account.get_portfolio_value`: sum `price(symbol) * qty` over holdings
with the supplied provider, or `get_share_price` when none is given. -/
def Account.get_portfolio_value (a : Account)
    (price_provider : Option (String → Except Err ℚ)) : Except Err ℚ :=
  let provider := match price_provider with
    | some pp => pp
    | none => get_share_price
  portfolioLoop provider a.holdings 0

/-- `Account.get_total_balance`. -/
def Account.get_total_balance (a : Account)
    (price_provider : Option (String → Except Err ℚ)) : Except Err ℚ :=
  match a.get_portfolio_value price_provider with
  | Except.error e => Except.error e
  | Except.ok pv => Except.ok (a.cash_balance + pv)

/-- `Account.get_profit_loss`. -/
def Account.get_profit_loss (a : Account)
    (price_provider : Option (String → Except Err ℚ)) : Except Err ℚ :=
  match a.get_total_balance price_provider with
  | Except.error e => Except.error e
  | Except.ok tb => Except.ok (tb - a.initial_deposit)

/-- The snapshot struct returned by `Account.statement`. -/
structure StatementData where
  account_id : String
  owner : Option String
  cash_balance : ℚ
  holdings : List (String × Int)
  portfolio_value : ℚ
  total_balance : ℚ
  profit_loss : ℚ
  number_of_transactions : Nat
deriving DecidableEq, Repr

/-- `Account.statement`: one consistent snapshot of balances and valuation. -/
def Account.statement (a : Account)
    (price_provider : Option (String → Except Err ℚ)) : Except Err StatementData :=
  match a.get_portfolio_value price_provider with
  | Except.error e => Except.error e
  | Except.ok pv =>
    Except.ok
      { account_id := a.account_id, owner := a.owner,
        cash_balance := a.cash_balance, holdings := a.holdings,
        portfolio_value := pv, total_balance := a.cash_balance + pv,
        profit_loss := a.cash_balance + pv - a.initial_deposit,
        number_of_transactions := a.transactions.length }

/-- The per-transaction filter of `Account.list_transactions` (each `continue`
in the source loop is one conjunct). -/
def txMatches (start stop : Option Int) (type_filter symbol_filter : Option String)
    (tx : Transaction) : Bool :=
  (match start with | some s => decide (s ≤ tx.timestamp) | none => true) &&
  (match stop with | some e => decide (tx.timestamp ≤ e) | none => true) &&
  (match type_filter with | some f => tx.type == f | none => true) &&
  (match symbol_filter with | some f => tx.symbol == some f | none => true)

/-- `Account.list_transactions`: reject `start > end`, else keep the stored
transactions passing every given filter, in order. -/
def Account.list_transactions (a : Account) (start stop : Option Int)
    (type_filter symbol_filter : Option String) : Except Err (List Transaction) :=
  if (match start, stop with | some s, some e => decide (e < s) | _, _ => false) then
    Except.error Err.invalidTransaction
  else
    Except.ok (a.transactions.filter (txMatches start stop type_filter symbol_filter))

/-- `Account.get_transaction`: first record with the given id, or none. -/
def Account.get_transaction (a : Account) (txid : String) : Option Transaction :=
  a.transactions.find? (fun tx => tx.tx_id == txid)

/-- One mutating call on the ledger, with its external inputs (timestamp,
fresh transaction id). -/
inductive Op where
  | deposit (amount : ℚ) (note : Option String) (t : Int) (txid : String)
  | withdraw (amount : ℚ) (note : Option String) (t : Int) (txid : String)
  | buy (symbol : String) (quantity : Int) (price : Option ℚ)
      (note : Option String) (t : Int) (txid : String)
  | sell (symbol : String) (quantity : Int) (price : Option ℚ)
      (note : Option String) (t : Int) (txid : String)

/-- Dispatch one mutating call. -/
def applyOp (a : Account) : Op → Except Err Transaction × Account
  | Op.deposit amount note t txid => a.deposit amount note t txid
  | Op.withdraw amount note t txid => a.withdraw amount note t txid
  | Op.buy symbol quantity price note t txid => a.buy symbol quantity price note t txid
  | Op.sell symbol quantity price note t txid => a.sell symbol quantity price note t txid

/-- Account states reachable from construction by successful mutating
operations. -/
inductive Reachable : Account → Prop where
  | created : ∀ id owner dep t txid a,
      Account.create id owner dep t txid = Except.ok a → Reachable a
  | step : ∀ a op tx a', Reachable a →
      applyOp a op = (Except.ok tx, a') → Reachable a'

/-- Modelled from the spec's words for the history query (C6): a transaction
is kept when its timestamp lies within `[start, end]` inclusive (when those
bounds are given), its kind equals the type filter (when given) and its
symbol equals the symbol filter (when given). -/
def specTxMatch (start stop : Option Int) (type_filter symbol_filter : Option String)
    (tx : Transaction) : Bool :=
  (start.all fun s => decide (s ≤ tx.timestamp)) &&
  (stop.all fun e => decide (tx.timestamp ≤ e)) &&
  (type_filter.all fun f => tx.type == f) &&
  (symbol_filter.all fun f => tx.symbol == some f)

/-! ### Concrete fixtures used by witness instances -/

/-- A freshly created account with no initial deposit. -/
def acct0 : Account :=
  { account_id := "acct", owner := none, initial_deposit := 0,
    cash_balance := 0, holdings := [], transactions := [] }

/-- `acct0` after a deposit of 5: the recorded transaction. -/
def tx5 : Transaction :=
  { tx_id := "d", timestamp := 0, type := "deposit", symbol := none,
    quantity := none, price := none, cash_delta := 5, holdings_delta := [],
    note := none }

/-- `acct0` after a deposit of 5. -/
def acct5 : Account :=
  { account_id := "acct", owner := none, initial_deposit := 5,
    cash_balance := 5, holdings := [], transactions := [tx5] }

/-- The synthetic initial-deposit transaction of an account created with 10. -/
def txInit : Transaction :=
  { tx_id := "i", timestamp := 0, type := "deposit", symbol := none,
    quantity := none, price := none, cash_delta := 10, holdings_delta := [],
    note := some "Initial deposit" }

/-- An account created with initial deposit 10. -/
def acctC : Account :=
  { account_id := "acct", owner := none, initial_deposit := 10,
    cash_balance := 10, holdings := [], transactions := [txInit] }

/-- The buy transaction applied to `acctC`. -/
def txB1 : Transaction :=
  { tx_id := "b1", timestamp := 1, type := "buy", symbol := some "AAPL",
    quantity := some 1, price := some 4, cash_delta := -4,
    holdings_delta := [("AAPL", 1)], note := none }

/-- `acctC` after buying one AAPL at 4. -/
def acctC2 : Account :=
  { account_id := "acct", owner := none, initial_deposit := 10,
    cash_balance := 6, holdings := [("AAPL", 1)],
    transactions := [txInit, txB1] }

/-- The sell transaction applied to `acctC2`. -/
def txS1 : Transaction :=
  { tx_id := "s1", timestamp := 2, type := "sell", symbol := some "AAPL",
    quantity := some 1, price := some 0, cash_delta := 0,
    holdings_delta := [("AAPL", -1)], note := none }

/-- `acctC2` after selling its one AAPL at 0, emptying the holding. -/
def acctS : Account :=
  { account_id := "acct", owner := none, initial_deposit := 10,
    cash_balance := 6, holdings := [], transactions := [txInit, txB1, txS1] }

/-- An account with 10 in cash and no history, for buy-success instances. -/
def acct10 : Account :=
  { account_id := "acct", owner := none, initial_deposit := 0,
    cash_balance := 10, holdings := [], transactions := [] }

/-- A deposit transaction fixture for the history query. -/
def txD : Transaction :=
  { tx_id := "t1", timestamp := 1, type := "deposit", symbol := none,
    quantity := none, price := none, cash_delta := 7, holdings_delta := [],
    note := none }

/-- A buy transaction fixture for the history query. -/
def txB : Transaction :=
  { tx_id := "t2", timestamp := 2, type := "buy", symbol := some "AAPL",
    quantity := some 1, price := some 3, cash_delta := -3,
    holdings_delta := [("AAPL", 1)], note := none }

/-- An account whose history holds one deposit and one buy. -/
def acctT : Account :=
  { account_id := "acct", owner := none, initial_deposit := 7,
    cash_balance := 4, holdings := [("AAPL", 1)], transactions := [txD, txB] }

/-- A constant price provider used by valuation instances. -/
def provC : String → Except Err ℚ := fun _ => Except.ok 2

/-- The pure price function matching `provC`. -/
def provF : String → ℚ := fun _ => 2


/-! ## Association-list (Python dict) lemmas -/

theorem dictGet_nil (k : String) : dictGet [] k = 0 := rfl

theorem dictGet_cons_pos (p : String × Int) (rest : List (String × Int)) (k : String)
    (h : (p.1 == k) = true) : dictGet (p :: rest) k = p.2 := by
  simp [dictGet, List.find?_cons, h]

theorem dictGet_cons_neg (p : String × Int) (rest : List (String × Int)) (k : String)
    (h : (p.1 == k) = false) : dictGet (p :: rest) k = dictGet rest k := by
  simp [dictGet, List.find?_cons, h]

theorem dictMem_cons (p : String × Int) (rest : List (String × Int)) (k : String) :
    dictMem (p :: rest) k = ((p.1 == k) || dictMem rest k) := by
  simp [dictMem]

theorem dictGet_eq_zero_of_not_mem (d : List (String × Int)) (k : String)
    (h : dictMem d k = false) : dictGet d k = 0 := by
  induction d with
  | nil => rfl
  | cons p rest ih =>
    rw [dictMem_cons, Bool.or_eq_false_iff] at h
    rw [dictGet_cons_neg p rest k h.1]
    exact ih h.2

theorem dictGet_pos_of_mem (d : List (String × Int)) (k : String)
    (hpos : ∀ p ∈ d, 0 < p.2) (hm : dictMem d k = true) : 0 < dictGet d k := by
  induction d with
  | nil => simp [dictMem] at hm
  | cons p rest ih =>
    by_cases h : (p.1 == k) = true
    · rw [dictGet_cons_pos p rest k h]
      exact hpos p (List.mem_cons_self p rest)
    · have h' : (p.1 == k) = false := by simpa using h
      rw [dictMem_cons, h', Bool.false_or] at hm
      rw [dictGet_cons_neg p rest k h']
      exact ih (fun q hq => hpos q (List.mem_cons_of_mem p hq)) hm

theorem dictGet_nonneg (d : List (String × Int)) (k : String)
    (hpos : ∀ p ∈ d, 0 < p.2) : 0 ≤ dictGet d k := by
  cases hm : dictMem d k with
  | false => rw [dictGet_eq_zero_of_not_mem d k hm]
  | true => exact le_of_lt (dictGet_pos_of_mem d k hpos hm)

theorem dictGet_append_single_self (d : List (String × Int)) (k : String) (v : Int)
    (h : dictMem d k = false) : dictGet (d ++ [(k, v)]) k = v := by
  induction d with
  | nil => simp [dictGet_cons_pos]
  | cons p rest ih =>
    rw [dictMem_cons, Bool.or_eq_false_iff] at h
    rw [List.cons_append, dictGet_cons_neg _ _ k h.1]
    exact ih h.2

theorem dictGet_append_single_ne (d : List (String × Int)) (k k' : String) (v : Int)
    (hne : (k == k') = false) : dictGet (d ++ [(k, v)]) k' = dictGet d k' := by
  induction d with
  | nil =>
    rw [List.nil_append, dictGet_cons_neg (k, v) [] k' hne]
  | cons p rest ih =>
    by_cases h : (p.1 == k') = true
    · rw [List.cons_append, dictGet_cons_pos _ _ k' h, dictGet_cons_pos p rest k' h]
    · have h' : (p.1 == k') = false := by simpa using h
      rw [List.cons_append, dictGet_cons_neg _ _ k' h', dictGet_cons_neg p rest k' h']
      exact ih

theorem dictGet_map_replace_self (d : List (String × Int)) (k : String) (v : Int)
    (hm : dictMem d k = true) :
    dictGet (d.map (fun p => if p.1 == k then (k, v) else p)) k = v := by
  induction d with
  | nil => simp [dictMem] at hm
  | cons p rest ih =>
    by_cases h : (p.1 == k) = true
    · rw [List.map_cons, if_pos h, dictGet_cons_pos _ _ k (by simp)]
    · have h' : (p.1 == k) = false := by simpa using h
      rw [dictMem_cons, h', Bool.false_or] at hm
      rw [List.map_cons, if_neg h, dictGet_cons_neg _ _ k h']
      exact ih hm

theorem dictGet_map_replace_ne (d : List (String × Int)) (k k' : String) (v : Int)
    (hne : (k == k') = false) :
    dictGet (d.map (fun p => if p.1 == k then (k, v) else p)) k' = dictGet d k' := by
  induction d with
  | nil => rfl
  | cons p rest ih =>
    by_cases h : (p.1 == k) = true
    · have hp : p.1 = k := by simpa using h
      have h2 : (p.1 == k') = false := by rw [hp]; exact hne
      rw [List.map_cons, if_pos h, dictGet_cons_neg _ _ k' hne,
        dictGet_cons_neg p rest k' h2]
      exact ih
    · by_cases hq : (p.1 == k') = true
      · rw [List.map_cons, if_neg h, dictGet_cons_pos _ _ k' hq,
          dictGet_cons_pos p rest k' hq]
      · have hq' : (p.1 == k') = false := by simpa using hq
        rw [List.map_cons, if_neg h, dictGet_cons_neg _ _ k' hq',
          dictGet_cons_neg p rest k' hq']
        exact ih

theorem dictGet_dictSet_self (d : List (String × Int)) (k : String) (v : Int) :
    dictGet (dictSet d k v) k = v := by
  unfold dictSet
  cases hm : dictMem d k with
  | false => simp only [Bool.false_eq_true, if_false]
             exact dictGet_append_single_self d k v hm
  | true => simp only [if_true]
            exact dictGet_map_replace_self d k v hm

theorem dictGet_dictSet_ne (d : List (String × Int)) (k k' : String) (v : Int)
    (hne : (k == k') = false) : dictGet (dictSet d k v) k' = dictGet d k' := by
  unfold dictSet
  cases hm : dictMem d k with
  | false => simp only [Bool.false_eq_true, if_false]
             exact dictGet_append_single_ne d k k' v hne
  | true => simp only [if_true]
            exact dictGet_map_replace_ne d k k' v hne

theorem mem_dictSet (d : List (String × Int)) (k : String) (v : Int) :
    ∀ q ∈ dictSet d k v, q = (k, v) ∨ q ∈ d := by
  intro q hq
  unfold dictSet at hq
  by_cases hm : dictMem d k = true
  · rw [if_pos hm] at hq
    obtain ⟨p, hp, hfp⟩ := List.mem_map.mp hq
    by_cases h : (p.1 == k) = true
    · left; rw [← hfp, if_pos h]
    · right; rw [← hfp, if_neg h]; exact hp
  · rw [if_neg hm] at hq
    rcases List.mem_append.mp hq with h | h
    · right; exact h
    · left; simpa using h

theorem mem_dictPop (d : List (String × Int)) (k : String) :
    ∀ q ∈ dictPop d k, q ∈ d := by
  intro q hq
  exact (List.mem_filter.mp hq).1

theorem dictMem_dictPop_self (d : List (String × Int)) (k : String) :
    dictMem (dictPop d k) k = false := by
  rw [Bool.eq_false_iff]
  intro hm
  obtain ⟨p, hp, hpk⟩ := List.any_eq_true.mp hm
  have := (List.mem_filter.mp hp).2
  simp only [bne_iff_ne, ne_eq] at this
  exact this (by simpa using hpk)

theorem dictGet_dictPop_self (d : List (String × Int)) (k : String) :
    dictGet (dictPop d k) k = 0 :=
  dictGet_eq_zero_of_not_mem _ _ (dictMem_dictPop_self d k)

theorem dictGet_dictPop_ne (d : List (String × Int)) (k k' : String)
    (hne : (k == k') = false) : dictGet (dictPop d k) k' = dictGet d k' := by
  induction d with
  | nil => rfl
  | cons p rest ih =>
    by_cases h : (p.1 == k) = true
    · have hp : p.1 = k := by simpa using h
      have h2 : (p.1 == k') = false := by rw [hp]; exact hne
      have : dictPop (p :: rest) k = dictPop rest k := by
        simp [dictPop, List.filter_cons, bne, h]
      rw [this, dictGet_cons_neg p rest k' h2]
      exact ih
    · have h' : (p.1 == k) = false := by simpa using h
      have : dictPop (p :: rest) k = p :: dictPop rest k := by
        simp [dictPop, List.filter_cons, bne, h']
      rw [this]
      by_cases hq : (p.1 == k') = true
      · rw [dictGet_cons_pos _ _ k' hq, dictGet_cons_pos p rest k' hq]
      · have hq' : (p.1 == k') = false := by simpa using hq
        rw [dictGet_cons_neg _ _ k' hq', dictGet_cons_neg p rest k' hq']
        exact ih

theorem dictMem_dictSet_self (d : List (String × Int)) (k : String) (v : Int) :
    dictMem (dictSet d k v) k = true := by
  unfold dictSet
  cases hm : dictMem d k with
  | false =>
    simp only [Bool.false_eq_true, if_false]
    induction d with
    | nil => simp [dictMem]
    | cons p rest ih =>
      rw [dictMem_cons, Bool.or_eq_false_iff] at hm
      rw [List.cons_append, dictMem_cons, hm.1, Bool.false_or]
      exact ih hm.2
  | true =>
    simp only [if_true]
    induction d with
    | nil => simp [dictMem] at hm
    | cons p rest ih =>
      by_cases h : (p.1 == k) = true
      · rw [List.map_cons, if_pos h, dictMem_cons]
        simp
      · have h' : (p.1 == k) = false := by simpa using h
        rw [dictMem_cons, h', Bool.false_or] at hm
        rw [List.map_cons, if_neg h, dictMem_cons, h', Bool.false_or]
        exact ih hm

theorem dictMem_eq_true_iff_dictGet_ne_zero (d : List (String × Int)) (k : String)
    (hpos : ∀ p ∈ d, 0 < p.2) : dictMem d k = true ↔ dictGet d k ≠ 0 := by
  constructor
  · intro hm
    exact ne_of_gt (dictGet_pos_of_mem d k hpos hm)
  · intro h
    cases hm : dictMem d k with
    | false => exact absurd (dictGet_eq_zero_of_not_mem d k hm) h
    | true => rfl

/-! ## The ledger invariant: non-negative cash, positive holdings, and
state = aggregation of the transaction log -/

/-- Sum of `cash_delta` over a transaction list. -/
def txSum (txs : List Transaction) : ℚ :=
  (txs.map Transaction.cash_delta).sum

/-- Per-symbol sum of `holdings_delta` over a transaction list. -/
def txHoldSum (txs : List Transaction) (sym : String) : Int :=
  (txs.map (fun tx => dictGet tx.holdings_delta sym)).sum

theorem txSum_append_single (l : List Transaction) (tx : Transaction) :
    txSum (l ++ [tx]) = txSum l + tx.cash_delta := by
  simp [txSum]

theorem txHoldSum_append_single (l : List Transaction) (tx : Transaction)
    (sym : String) :
    txHoldSum (l ++ [tx]) sym = txHoldSum l sym + dictGet tx.holdings_delta sym := by
  simp [txHoldSum]

/-- Master invariant of the account: non-negative cash, strictly positive
holdings, and both balances equal to the aggregation of the log. -/
def AccountInv (a : Account) : Prop :=
  0 ≤ a.cash_balance ∧
  (∀ p ∈ a.holdings, 0 < p.2) ∧
  a.cash_balance = txSum a.transactions ∧
  (∀ sym, dictGet a.holdings sym = txHoldSum a.transactions sym)

theorem create_inv (id : String) (owner : Option String) (dep : ℚ)
    (t : Int) (txid : String) (a : Account)
    (h : Account.create id owner dep t txid = Except.ok a) : AccountInv a := by
  unfold Account.create at h
  split at h
  · exact absurd h (by simp)
  · rename_i hdep
    simp only [Account.record_transaction] at h
    split at h
    · rename_i hpos
      injection h with h
      subst h
      refine ⟨?_, ?_, ?_, ?_⟩
      · simpa using le_of_lt hpos
      · intro p hp; simp at hp
      · simp [txSum]
      · intro sym; simp [txHoldSum, dictGet]
    · injection h with h
      subst h
      refine ⟨le_refl 0, ?_, ?_, ?_⟩
      · intro p hp; simp at hp
      · simp [txSum]
      · intro sym; simp [txHoldSum, dictGet]

theorem deposit_inv (a : Account) (amount : ℚ) (note : Option String)
    (t : Int) (txid : String) (tx : Transaction) (a' : Account)
    (hInv : AccountInv a) (h : a.deposit amount note t txid = (Except.ok tx, a')) :
    AccountInv a' := by
  obtain ⟨hcash, hpos, hsum, hhold⟩ := hInv
  unfold Account.deposit at h
  split at h
  · exact absurd (congrArg Prod.fst h) (by simp)
  · rename_i hamt
    push_neg at hamt
    simp only [Account.record_transaction] at h
    split at h
    all_goals
      rw [Prod.mk.injEq] at h
      obtain ⟨h1, h2⟩ := h
      subst h2
      refine ⟨?_, ?_, ?_, ?_⟩
    · simp only
      linarith
    · simpa using hpos
    · simp only [txSum_append_single]
      rw [← hsum]
    · intro sym
      simp only [txHoldSum_append_single]
      rw [← hhold sym, dictGet_nil, add_zero]
    · simp only
      linarith
    · simpa using hpos
    · simp only [txSum_append_single]
      rw [← hsum]
    · intro sym
      simp only [txHoldSum_append_single]
      rw [← hhold sym, dictGet_nil, add_zero]

theorem withdraw_inv (a : Account) (amount : ℚ) (note : Option String)
    (t : Int) (txid : String) (tx : Transaction) (a' : Account)
    (hInv : AccountInv a) (h : a.withdraw amount note t txid = (Except.ok tx, a')) :
    AccountInv a' := by
  obtain ⟨hcash, hpos, hsum, hhold⟩ := hInv
  unfold Account.withdraw at h
  split at h
  · exact absurd (congrArg Prod.fst h) (by simp)
  · split at h
    · exact absurd (congrArg Prod.fst h) (by simp)
    · rename_i hover
      push_neg at hover
      simp only [Account.record_transaction] at h
      rw [Prod.mk.injEq] at h
      obtain ⟨h1, h2⟩ := h
      subst h2
      refine ⟨?_, ?_, ?_, ?_⟩
      · simpa using hover
      · simpa using hpos
      · simp only [txSum_append_single]
        rw [← hsum]
        ring
      · intro sym
        simp only [txHoldSum_append_single]
        rw [← hhold sym, dictGet_nil, add_zero]

theorem buy_inv (a : Account) (symbol : String) (quantity : Int)
    (price : Option ℚ) (note : Option String) (t : Int) (txid : String)
    (tx : Transaction) (a' : Account)
    (hInv : AccountInv a)
    (h : a.buy symbol quantity price note t txid = (Except.ok tx, a')) :
    AccountInv a' := by
  obtain ⟨hcash, hpos, hsum, hhold⟩ := hInv
  unfold Account.buy at h
  split at h
  · exact absurd (congrArg Prod.fst h) (by simp)
  · rename_i hq
    push_neg at hq
    split at h
    · exact absurd (congrArg Prod.fst h) (by simp)
    · rename_i exec_price heq
      split at h
      · exact absurd (congrArg Prod.fst h) (by simp)
      · rename_i hprice
        push_neg at hprice
        simp only [] at h
        split at h
        · exact absurd (congrArg Prod.fst h) (by simp)
        · rename_i hfunds
          push_neg at hfunds
          simp only [Account.record_transaction] at h
          rw [Prod.mk.injEq] at h
          obtain ⟨h1, h2⟩ := h
          subst h2
          refine ⟨?_, ?_, ?_, ?_⟩
          · simpa using hfunds
          · intro p hp
            simp only at hp
            rcases mem_dictSet _ _ _ p hp with hpk | hmem
            · subst hpk
              have hg : 0 ≤ dictGet a.holdings symbol := dictGet_nonneg _ _ hpos
              simp only
              omega
            · exact hpos p hmem
          · simp only [txSum_append_single]
            rw [← hsum]
            ring
          · intro sym
            simp only [txHoldSum_append_single]
            by_cases hbe : (symbol == sym) = true
            · have hse : symbol = sym := by simpa using hbe
              subst hse
              rw [dictGet_cons_pos (symbol, quantity) [] symbol (by simp),
                dictGet_dictSet_self, ← hhold symbol]
            · have hbe' : (symbol == sym) = false := by simpa using hbe
              rw [dictGet_cons_neg (symbol, quantity) [] sym hbe', dictGet_nil,
                add_zero, dictGet_dictSet_ne _ _ _ _ hbe', ← hhold sym]

theorem sell_inv (a : Account) (symbol : String) (quantity : Int)
    (price : Option ℚ) (note : Option String) (t : Int) (txid : String)
    (tx : Transaction) (a' : Account)
    (hInv : AccountInv a)
    (h : a.sell symbol quantity price note t txid = (Except.ok tx, a')) :
    AccountInv a' := by
  obtain ⟨hcash, hpos, hsum, hhold⟩ := hInv
  unfold Account.sell at h
  split at h
  · exact absurd (congrArg Prod.fst h) (by simp)
  · rename_i hq
    push_neg at hq
    simp only [] at h
    split at h
    · exact absurd (congrArg Prod.fst h) (by simp)
    · rename_i hshares
      push_neg at hshares
      split at h
      · exact absurd (congrArg Prod.fst h) (by simp)
      · rename_i exec_price heq
        split at h
        · exact absurd (congrArg Prod.fst h) (by simp)
        · rename_i hprice
          push_neg at hprice
          simp only [Account.record_transaction] at h
          have hproceeds : 0 ≤ exec_price * (quantity : ℚ) := by
            apply mul_nonneg hprice
            exact_mod_cast le_of_lt hq
          split at h
          · rename_i hzero
            rw [Prod.mk.injEq] at h
            obtain ⟨h1, h2⟩ := h
            subst h2
            refine ⟨?_, ?_, ?_, ?_⟩
            · simp only
              linarith
            · intro p hp
              simp only at hp
              exact hpos p (mem_dictPop _ _ p hp)
            · simp only [txSum_append_single]
              rw [← hsum]
            · intro sym
              simp only [txHoldSum_append_single]
              by_cases hbe : (symbol == sym) = true
              · have hse : symbol = sym := by simpa using hbe
                subst hse
                rw [dictGet_cons_pos (symbol, -quantity) [] symbol (by simp),
                  dictGet_dictPop_self, ← hhold symbol]
                omega
              · have hbe' : (symbol == sym) = false := by simpa using hbe
                rw [dictGet_cons_neg (symbol, -quantity) [] sym hbe', dictGet_nil,
                  add_zero, dictGet_dictPop_ne _ _ _ hbe', ← hhold sym]
          · rename_i hnz
            rw [Prod.mk.injEq] at h
            obtain ⟨h1, h2⟩ := h
            subst h2
            refine ⟨?_, ?_, ?_, ?_⟩
            · simp only
              linarith
            · intro p hp
              simp only at hp
              rcases mem_dictSet _ _ _ p hp with hpk | hmem
              · subst hpk
                simp only
                omega
              · exact hpos p hmem
            · simp only [txSum_append_single]
              rw [← hsum]
            · intro sym
              simp only [txHoldSum_append_single]
              by_cases hbe : (symbol == sym) = true
              · have hse : symbol = sym := by simpa using hbe
                subst hse
                rw [dictGet_cons_pos (symbol, -quantity) [] symbol (by simp),
                  dictGet_dictSet_self, ← hhold symbol]
                omega
              · have hbe' : (symbol == sym) = false := by simpa using hbe
                rw [dictGet_cons_neg (symbol, -quantity) [] sym hbe', dictGet_nil,
                  add_zero, dictGet_dictSet_ne _ _ _ _ hbe', ← hhold sym]

theorem applyOp_inv (a : Account) (op : Op) (tx : Transaction) (a' : Account)
    (hInv : AccountInv a) (h : applyOp a op = (Except.ok tx, a')) :
    AccountInv a' := by
  cases op with
  | deposit amount note t txid => exact deposit_inv a amount note t txid tx a' hInv h
  | withdraw amount note t txid => exact withdraw_inv a amount note t txid tx a' hInv h
  | buy symbol quantity price note t txid =>
    exact buy_inv a symbol quantity price note t txid tx a' hInv h
  | sell symbol quantity price note t txid =>
    exact sell_inv a symbol quantity price note t txid tx a' hInv h

theorem reachable_inv (a : Account) (h : Reachable a) : AccountInv a := by
  induction h with
  | created id owner dep t txid a hc => exact create_inv id owner dep t txid a hc
  | step a op tx a' _ hstep ih => exact applyOp_inv a op tx a' ih hstep

/-! ## Per-operation effect lemmas -/

theorem deposit_effects (a : Account) (amount : ℚ) (note : Option String)
    (t : Int) (txid : String) (r : Except Err Transaction) (a' : Account)
    (h : a.deposit amount note t txid = (r, a')) :
    (∀ e, r = Except.error e → a' = a) ∧
    (∀ tx, r = Except.ok tx → a'.transactions = a.transactions ++ [tx]) := by
  unfold Account.deposit at h
  split at h
  · rw [Prod.mk.injEq] at h
    obtain ⟨h1, h2⟩ := h
    subst h1; subst h2
    exact ⟨fun e _ => rfl, fun tx htx => absurd htx (by simp)⟩
  · simp only [Account.record_transaction] at h
    split at h
    all_goals
      rw [Prod.mk.injEq] at h
      obtain ⟨h1, h2⟩ := h
      subst h1; subst h2
      refine ⟨fun e he => absurd he (by simp), fun tx htx => ?_⟩
      have := Except.ok.inj htx
      subst this
      rfl

theorem withdraw_effects (a : Account) (amount : ℚ) (note : Option String)
    (t : Int) (txid : String) (r : Except Err Transaction) (a' : Account)
    (h : a.withdraw amount note t txid = (r, a')) :
    (∀ e, r = Except.error e → a' = a) ∧
    (∀ tx, r = Except.ok tx → a'.transactions = a.transactions ++ [tx]) := by
  unfold Account.withdraw at h
  split at h
  · rw [Prod.mk.injEq] at h
    obtain ⟨h1, h2⟩ := h
    subst h1; subst h2
    exact ⟨fun e _ => rfl, fun tx htx => absurd htx (by simp)⟩
  · split at h
    · rw [Prod.mk.injEq] at h
      obtain ⟨h1, h2⟩ := h
      subst h1; subst h2
      exact ⟨fun e _ => rfl, fun tx htx => absurd htx (by simp)⟩
    · simp only [Account.record_transaction] at h
      rw [Prod.mk.injEq] at h
      obtain ⟨h1, h2⟩ := h
      subst h1; subst h2
      refine ⟨fun e he => absurd he (by simp), fun tx htx => ?_⟩
      have := Except.ok.inj htx
      subst this
      rfl

theorem buy_effects (a : Account) (symbol : String) (quantity : Int)
    (price : Option ℚ) (note : Option String) (t : Int) (txid : String)
    (r : Except Err Transaction) (a' : Account)
    (h : a.buy symbol quantity price note t txid = (r, a')) :
    (∀ e, r = Except.error e → a' = a) ∧
    (∀ tx, r = Except.ok tx → a'.transactions = a.transactions ++ [tx]) := by
  unfold Account.buy at h
  split at h
  · rw [Prod.mk.injEq] at h
    obtain ⟨h1, h2⟩ := h
    subst h1; subst h2
    exact ⟨fun e _ => rfl, fun tx htx => absurd htx (by simp)⟩
  · split at h
    · rw [Prod.mk.injEq] at h
      obtain ⟨h1, h2⟩ := h
      subst h1; subst h2
      exact ⟨fun e _ => rfl, fun tx htx => absurd htx (by simp)⟩
    · split at h
      · rw [Prod.mk.injEq] at h
        obtain ⟨h1, h2⟩ := h
        subst h1; subst h2
        exact ⟨fun e _ => rfl, fun tx htx => absurd htx (by simp)⟩
      · simp only [] at h
        split at h
        · rw [Prod.mk.injEq] at h
          obtain ⟨h1, h2⟩ := h
          subst h1; subst h2
          exact ⟨fun e _ => rfl, fun tx htx => absurd htx (by simp)⟩
        · simp only [Account.record_transaction] at h
          rw [Prod.mk.injEq] at h
          obtain ⟨h1, h2⟩ := h
          subst h1; subst h2
          refine ⟨fun e he => absurd he (by simp), fun tx htx => ?_⟩
          have := Except.ok.inj htx
          subst this
          rfl

theorem sell_effects (a : Account) (symbol : String) (quantity : Int)
    (price : Option ℚ) (note : Option String) (t : Int) (txid : String)
    (r : Except Err Transaction) (a' : Account)
    (h : a.sell symbol quantity price note t txid = (r, a')) :
    (∀ e, r = Except.error e → a' = a) ∧
    (∀ tx, r = Except.ok tx → a'.transactions = a.transactions ++ [tx]) := by
  unfold Account.sell at h
  split at h
  · rw [Prod.mk.injEq] at h
    obtain ⟨h1, h2⟩ := h
    subst h1; subst h2
    exact ⟨fun e _ => rfl, fun tx htx => absurd htx (by simp)⟩
  · simp only [] at h
    split at h
    · rw [Prod.mk.injEq] at h
      obtain ⟨h1, h2⟩ := h
      subst h1; subst h2
      exact ⟨fun e _ => rfl, fun tx htx => absurd htx (by simp)⟩
    · split at h
      · rw [Prod.mk.injEq] at h
        obtain ⟨h1, h2⟩ := h
        subst h1; subst h2
        exact ⟨fun e _ => rfl, fun tx htx => absurd htx (by simp)⟩
      · split at h
        · rw [Prod.mk.injEq] at h
          obtain ⟨h1, h2⟩ := h
          subst h1; subst h2
          exact ⟨fun e _ => rfl, fun tx htx => absurd htx (by simp)⟩
        · simp only [Account.record_transaction] at h
          split at h
          all_goals
            rw [Prod.mk.injEq] at h
            obtain ⟨h1, h2⟩ := h
            subst h1; subst h2
            refine ⟨fun e he => absurd he (by simp), fun tx htx => ?_⟩
            have := Except.ok.inj htx
            subst this
            rfl

theorem applyOp_effects (a : Account) (op : Op) (r : Except Err Transaction)
    (a' : Account) (h : applyOp a op = (r, a')) :
    (∀ e, r = Except.error e → a' = a) ∧
    (∀ tx, r = Except.ok tx → a'.transactions = a.transactions ++ [tx]) := by
  cases op with
  | deposit amount note t txid => exact deposit_effects a amount note t txid r a' h
  | withdraw amount note t txid => exact withdraw_effects a amount note t txid r a' h
  | buy symbol quantity price note t txid =>
    exact buy_effects a symbol quantity price note t txid r a' h
  | sell symbol quantity price note t txid =>
    exact sell_effects a symbol quantity price note t txid r a' h

/-! ## Rejection and success characterizations -/

theorem withdraw_insufficient (a : Account) (amount : ℚ) (note : Option String)
    (t : Int) (txid : String) (h0 : 0 ≤ a.cash_balance)
    (hover : a.cash_balance - amount < 0) :
    a.withdraw amount note t txid = (Except.error Err.insufficientFunds, a) := by
  have hamt : ¬ amount ≤ 0 := by intro hle; linarith
  unfold Account.withdraw
  rw [if_neg hamt, if_pos hover]

theorem buy_resolved_price (a : Account) (symbol : String) (quantity : Int)
    (price : Option ℚ) (ep : ℚ) (note : Option String) (t : Int) (txid : String)
    (hres : price = some ep ∨ (price = none ∧ get_share_price symbol = Except.ok ep)) :
    a.buy symbol quantity price note t txid = a.buy symbol quantity (some ep) note t txid := by
  rcases hres with he | ⟨he, hok⟩
  · subst he; rfl
  · subst he
    unfold Account.buy
    simp only [hok]

theorem buy_quantity_nonpos (a : Account) (symbol : String) (quantity : Int)
    (price : Option ℚ) (note : Option String) (t : Int) (txid : String)
    (hq : quantity ≤ 0) :
    a.buy symbol quantity price note t txid = (Except.error Err.invalidTransaction, a) := by
  unfold Account.buy
  rw [if_pos hq]

theorem buy_oracle_error (a : Account) (symbol : String) (quantity : Int)
    (note : Option String) (t : Int) (txid : String) (e : Err)
    (hq : 0 < quantity) (herr : get_share_price symbol = Except.error e) :
    a.buy symbol quantity none note t txid = (Except.error e, a) := by
  unfold Account.buy
  rw [if_neg (not_le.mpr hq)]
  simp only [herr]

theorem buy_some_invalid_price (a : Account) (symbol : String) (quantity : Int)
    (ep : ℚ) (note : Option String) (t : Int) (txid : String)
    (hq : 0 < quantity) (hep : ep < 0) :
    a.buy symbol quantity (some ep) note t txid = (Except.error Err.invalidTransaction, a) := by
  unfold Account.buy
  rw [if_neg (not_le.mpr hq)]
  simp only []
  rw [if_pos hep]

theorem buy_some_insufficient (a : Account) (symbol : String) (quantity : Int)
    (ep : ℚ) (note : Option String) (t : Int) (txid : String)
    (hq : 0 < quantity) (hep : 0 ≤ ep)
    (hf : a.cash_balance - ep * (quantity : ℚ) < 0) :
    a.buy symbol quantity (some ep) note t txid = (Except.error Err.insufficientFunds, a) := by
  unfold Account.buy
  rw [if_neg (not_le.mpr hq)]
  simp only []
  rw [if_neg (not_lt.mpr hep)]
  rw [if_pos hf]

theorem buy_some_success (a : Account) (symbol : String) (quantity : Int)
    (ep : ℚ) (note : Option String) (t : Int) (txid : String)
    (hq : 0 < quantity) (hep : 0 ≤ ep)
    (hf : 0 ≤ a.cash_balance - ep * (quantity : ℚ)) :
    ∃ tx a', a.buy symbol quantity (some ep) note t txid = (Except.ok tx, a') ∧
      a'.cash_balance = a.cash_balance - ep * (quantity : ℚ) ∧
      a'.holdings = dictSet a.holdings symbol (dictGet a.holdings symbol + quantity) ∧
      a'.transactions = a.transactions ++ [tx] ∧
      a'.initial_deposit = a.initial_deposit ∧
      a'.account_id = a.account_id ∧ a'.owner = a.owner ∧
      tx.type = "buy" ∧ tx.symbol = some symbol ∧ tx.quantity = some quantity ∧
      tx.price = some ep ∧ tx.cash_delta = -(ep * (quantity : ℚ)) ∧
      tx.holdings_delta = [(symbol, quantity)] ∧ tx.note = note ∧
      tx.timestamp = t ∧ tx.tx_id = txid := by
  unfold Account.buy
  rw [if_neg (not_le.mpr hq)]
  simp only []
  rw [if_neg (not_lt.mpr hep)]
  rw [if_neg (not_lt.mpr hf)]
  exact ⟨_, _, rfl, rfl, rfl, rfl, rfl, rfl, rfl, rfl, rfl, rfl, rfl, rfl, rfl, rfl, rfl, rfl⟩

theorem sell_quantity_nonpos (a : Account) (symbol : String) (quantity : Int)
    (price : Option ℚ) (note : Option String) (t : Int) (txid : String)
    (hq : quantity ≤ 0) :
    a.sell symbol quantity price note t txid = (Except.error Err.invalidTransaction, a) := by
  unfold Account.sell
  rw [if_pos hq]

theorem sell_oversell (a : Account) (symbol : String) (quantity : Int)
    (price : Option ℚ) (note : Option String) (t : Int) (txid : String)
    (h0 : 0 ≤ dictGet a.holdings symbol)
    (hover : dictGet a.holdings symbol < quantity) :
    a.sell symbol quantity price note t txid = (Except.error Err.insufficientShares, a) := by
  have hq : ¬ quantity ≤ 0 := by omega
  unfold Account.sell
  rw [if_neg hq]
  simp only []
  rw [if_pos (by omega : dictGet a.holdings symbol - quantity < 0)]

theorem sell_resolved_price (a : Account) (symbol : String) (quantity : Int)
    (price : Option ℚ) (ep : ℚ) (note : Option String) (t : Int) (txid : String)
    (hres : price = some ep ∨ (price = none ∧ get_share_price symbol = Except.ok ep)) :
    a.sell symbol quantity price note t txid = a.sell symbol quantity (some ep) note t txid := by
  rcases hres with he | ⟨he, hok⟩
  · subst he; rfl
  · subst he
    unfold Account.sell
    simp only [hok]

theorem sell_some_success (a : Account) (symbol : String) (quantity : Int)
    (ep : ℚ) (note : Option String) (t : Int) (txid : String)
    (hq : 0 < quantity) (hshares : quantity ≤ dictGet a.holdings symbol)
    (hep : 0 ≤ ep) :
    ∃ tx a', a.sell symbol quantity (some ep) note t txid = (Except.ok tx, a') ∧
      a'.cash_balance = a.cash_balance + ep * (quantity : ℚ) ∧
      a'.holdings = (if dictGet a.holdings symbol - quantity = 0
        then dictPop a.holdings symbol
        else dictSet a.holdings symbol (dictGet a.holdings symbol - quantity)) ∧
      a'.transactions = a.transactions ++ [tx] ∧
      a'.initial_deposit = a.initial_deposit ∧
      tx.type = "sell" ∧ tx.symbol = some symbol ∧ tx.quantity = some quantity ∧
      tx.price = some ep ∧ tx.cash_delta = ep * (quantity : ℚ) ∧
      tx.holdings_delta = [(symbol, -quantity)] ∧ tx.note = note ∧
      tx.timestamp = t ∧ tx.tx_id = txid := by
  unfold Account.sell
  rw [if_neg (not_le.mpr hq)]
  simp only []
  rw [if_neg (by omega : ¬ dictGet a.holdings symbol - quantity < 0)]
  rw [if_neg (not_lt.mpr hep)]
  exact ⟨_, _, rfl, rfl, rfl, rfl, rfl, rfl, rfl, rfl, rfl, rfl, rfl, rfl, rfl, rfl⟩

/-! ## Valuation lemmas -/

theorem portfolioLoop_ok_sum (provider : String → Except Err ℚ) (f : String → ℚ)
    (l : List (String × Int)) (hall : ∀ p ∈ l, provider p.1 = Except.ok (f p.1)) :
    ∀ acc, portfolioLoop provider l acc
      = Except.ok (acc + (l.map (fun p => f p.1 * (p.2 : ℚ))).sum) := by
  induction l with
  | nil => intro acc; simp [portfolioLoop]
  | cons p rest ih =>
    intro acc
    simp only [portfolioLoop, hall p (List.mem_cons_self p rest)]
    rw [ih (fun q hq => hall q (List.mem_cons_of_mem p hq))]
    rw [List.map_cons, List.sum_cons, add_assoc]

theorem portfolioLoop_error_source (provider : String → Except Err ℚ)
    (l : List (String × Int)) (e : Err) :
    ∀ acc, portfolioLoop provider l acc = Except.error e →
      ∃ p ∈ l, provider p.1 = Except.error e := by
  induction l with
  | nil => intro acc h; simp [portfolioLoop] at h
  | cons p rest ih =>
    intro acc h
    simp only [portfolioLoop] at h
    cases hp : provider p.1 with
    | error e' =>
      rw [hp] at h
      have : e' = e := by
        have := Except.error.inj h
        exact this
      subst this
      exact ⟨p, List.mem_cons_self p rest, hp⟩
    | ok v =>
      rw [hp] at h
      obtain ⟨q, hq, hqe⟩ := ih _ h
      exact ⟨q, List.mem_cons_of_mem p hq, hqe⟩

theorem portfolioLoop_ok_forall (provider : String → Except Err ℚ)
    (l : List (String × Int)) :
    ∀ acc v, portfolioLoop provider l acc = Except.ok v →
      ∀ p ∈ l, ∃ q, provider p.1 = Except.ok q := by
  induction l with
  | nil => intro acc v _ p hp; simp at hp
  | cons p rest ih =>
    intro acc v h q hq
    simp only [portfolioLoop] at h
    cases hp : provider p.1 with
    | error e' => rw [hp] at h; exact absurd h (by simp)
    | ok w =>
      rw [hp] at h
      rcases List.mem_cons.mp hq with rfl | hq'
      · exact ⟨w, hp⟩
      · exact ih _ _ h q hq'

theorem get_share_price_unknown (symbol : String)
    (h1 : symbol ≠ "AAPL") (h2 : symbol ≠ "TSLA") (h3 : symbol ≠ "GOOGL") :
    get_share_price symbol = Except.error Err.unknownSymbol := by
  unfold get_share_price
  rw [if_neg (by simpa using h1), if_neg (by simpa using h2), if_neg (by simpa using h3)]

theorem get_share_price_error_is_unknown (s : String) (e : Err)
    (h : get_share_price s = Except.error e) : e = Err.unknownSymbol := by
  unfold get_share_price at h
  split at h
  · exact absurd h (by simp)
  · split at h
    · exact absurd h (by simp)
    · split at h
      · exact absurd h (by simp)
      · exact (Except.error.inj h).symm

theorem portfolio_default_error_of_unknown_member (a : Account) (symbol : String)
    (hmem : dictMem a.holdings symbol = true)
    (hunk : get_share_price symbol = Except.error Err.unknownSymbol) :
    a.get_portfolio_value none = Except.error Err.unknownSymbol := by
  unfold Account.get_portfolio_value
  simp only []
  cases hr : portfolioLoop get_share_price a.holdings 0 with
  | error e =>
    obtain ⟨q, hq, hqe⟩ := portfolioLoop_error_source get_share_price a.holdings e 0 hr
    rw [get_share_price_error_is_unknown q.1 e hqe]
  | ok v =>
    exfalso
    obtain ⟨q, hq, hbeq⟩ := List.any_eq_true.mp hmem
    obtain ⟨w, hw⟩ := portfolioLoop_ok_forall get_share_price a.holdings 0 v hr q hq
    have hq1 : q.1 = symbol := by simpa using hbeq
    rw [hq1, hunk] at hw
    exact absurd hw (by simp)

theorem total_balance_error (a : Account)
    (pp : Option (String → Except Err ℚ)) (e : Err)
    (h : a.get_portfolio_value pp = Except.error e) :
    a.get_total_balance pp = Except.error e := by
  unfold Account.get_total_balance
  rw [h]

theorem profit_loss_error (a : Account)
    (pp : Option (String → Except Err ℚ)) (e : Err)
    (h : a.get_portfolio_value pp = Except.error e) :
    a.get_profit_loss pp = Except.error e := by
  unfold Account.get_profit_loss
  rw [total_balance_error a pp e h]

theorem statement_error (a : Account)
    (pp : Option (String → Except Err ℚ)) (e : Err)
    (h : a.get_portfolio_value pp = Except.error e) :
    a.statement pp = Except.error e := by
  unfold Account.statement
  rw [h]

/-! ## Baseline (`initial_deposit`) lemmas -/

theorem create_initial_deposit (id : String) (owner : Option String) (dep : ℚ)
    (t : Int) (txid : String) (a : Account)
    (h : Account.create id owner dep t txid = Except.ok a) :
    a.initial_deposit = dep := by
  unfold Account.create at h
  split at h
  · exact absurd h (by simp)
  · rename_i hneg
    push_neg at hneg
    split at h
    · injection h with h
      subst h
      rfl
    · rename_i hp
      push_neg at hp
      injection h with h
      subst h
      have : dep = 0 := le_antisymm hp hneg
      simpa using this.symm

theorem deposit_initial_deposit (a : Account) (amount : ℚ) (note : Option String)
    (t : Int) (txid : String) (tx : Transaction) (a' : Account)
    (h : a.deposit amount note t txid = (Except.ok tx, a')) :
    (a.initial_deposit = 0 ∧ countDeposits a' = 1 → a'.initial_deposit = amount) ∧
    (¬(a.initial_deposit = 0 ∧ countDeposits a' = 1) →
      a'.initial_deposit = a.initial_deposit) := by
  unfold Account.deposit at h
  split at h
  · exact absurd (congrArg Prod.fst h) (by simp)
  · simp only [Account.record_transaction] at h
    split at h
    · rename_i hcond
      rw [Prod.mk.injEq] at h
      obtain ⟨h1, h2⟩ := h
      subst h2
      exact ⟨fun _ => rfl, fun hn => absurd ⟨hcond.1, hcond.2⟩ hn⟩
    · rename_i hcond
      rw [Prod.mk.injEq] at h
      obtain ⟨h1, h2⟩ := h
      subst h2
      exact ⟨fun hc => absurd ⟨hc.1, hc.2⟩ hcond, fun _ => rfl⟩

theorem withdraw_initial_deposit (a : Account) (amount : ℚ) (note : Option String)
    (t : Int) (txid : String) (r : Except Err Transaction) (a' : Account)
    (h : a.withdraw amount note t txid = (r, a')) :
    a'.initial_deposit = a.initial_deposit := by
  unfold Account.withdraw at h
  split at h
  · rw [Prod.mk.injEq] at h
    obtain ⟨h1, h2⟩ := h
    subst h2
    rfl
  · split at h
    · rw [Prod.mk.injEq] at h
      obtain ⟨h1, h2⟩ := h
      subst h2
      rfl
    · simp only [Account.record_transaction] at h
      rw [Prod.mk.injEq] at h
      obtain ⟨h1, h2⟩ := h
      subst h2
      rfl

theorem buy_initial_deposit (a : Account) (symbol : String) (quantity : Int)
    (price : Option ℚ) (note : Option String) (t : Int) (txid : String)
    (r : Except Err Transaction) (a' : Account)
    (h : a.buy symbol quantity price note t txid = (r, a')) :
    a'.initial_deposit = a.initial_deposit := by
  unfold Account.buy at h
  split at h
  · rw [Prod.mk.injEq] at h
    obtain ⟨h1, h2⟩ := h
    subst h2
    rfl
  · split at h
    · rw [Prod.mk.injEq] at h
      obtain ⟨h1, h2⟩ := h
      subst h2
      rfl
    · split at h
      · rw [Prod.mk.injEq] at h
        obtain ⟨h1, h2⟩ := h
        subst h2
        rfl
      · simp only [] at h
        split at h
        · rw [Prod.mk.injEq] at h
          obtain ⟨h1, h2⟩ := h
          subst h2
          rfl
        · simp only [Account.record_transaction] at h
          rw [Prod.mk.injEq] at h
          obtain ⟨h1, h2⟩ := h
          subst h2
          rfl

theorem sell_initial_deposit (a : Account) (symbol : String) (quantity : Int)
    (price : Option ℚ) (note : Option String) (t : Int) (txid : String)
    (r : Except Err Transaction) (a' : Account)
    (h : a.sell symbol quantity price note t txid = (r, a')) :
    a'.initial_deposit = a.initial_deposit := by
  unfold Account.sell at h
  split at h
  · rw [Prod.mk.injEq] at h
    obtain ⟨h1, h2⟩ := h
    subst h2
    rfl
  · simp only [] at h
    split at h
    · rw [Prod.mk.injEq] at h
      obtain ⟨h1, h2⟩ := h
      subst h2
      rfl
    · split at h
      · rw [Prod.mk.injEq] at h
        obtain ⟨h1, h2⟩ := h
        subst h2
        rfl
      · split at h
        · rw [Prod.mk.injEq] at h
          obtain ⟨h1, h2⟩ := h
          subst h2
          rfl
        · simp only [Account.record_transaction] at h
          split at h
          all_goals
            rw [Prod.mk.injEq] at h
            obtain ⟨h1, h2⟩ := h
            subst h2
            rfl

theorem sell_ok_holdings (a : Account) (symbol : String) (quantity : Int)
    (price : Option ℚ) (note : Option String) (t : Int) (txid : String)
    (tx : Transaction) (a' : Account)
    (h : a.sell symbol quantity price note t txid = (Except.ok tx, a')) :
    a'.holdings = (if dictGet a.holdings symbol - quantity = 0
      then dictPop a.holdings symbol
      else dictSet a.holdings symbol (dictGet a.holdings symbol - quantity)) := by
  unfold Account.sell at h
  split at h
  · exact absurd (congrArg Prod.fst h) (by simp)
  · simp only [] at h
    split at h
    · exact absurd (congrArg Prod.fst h) (by simp)
    · split at h
      · exact absurd (congrArg Prod.fst h) (by simp)
      · split at h
        · exact absurd (congrArg Prod.fst h) (by simp)
        · simp only [Account.record_transaction] at h
          split at h
          · rename_i hz
            rw [Prod.mk.injEq] at h
            obtain ⟨h1, h2⟩ := h
            subst h2
            rw [if_pos hz]
          · rename_i hz
            rw [Prod.mk.injEq] at h
            obtain ⟨h1, h2⟩ := h
            subst h2
            rw [if_neg hz]

/-! ## Fixture facts -/

theorem acct0_create : Account.create "acct" none 0 0 "i" = Except.ok acct0 := by
  norm_num [Account.create, acct0]

theorem acct0_reachable : Reachable acct0 :=
  Reachable.created "acct" none 0 0 "i" acct0 acct0_create

theorem acctC_create : Account.create "acct" none 10 0 "i" = Except.ok acctC := by
  norm_num [Account.create, Account.record_transaction, acctC, txInit]

theorem acctC_reachable : Reachable acctC :=
  Reachable.created "acct" none 10 0 "i" acctC acctC_create

theorem acctC2_step :
    applyOp acctC (Op.buy "AAPL" 1 (some 4) none 1 "b1") = (Except.ok txB1, acctC2) := by
  norm_num [applyOp, Account.buy, Account.record_transaction, dictSet, dictGet,
    dictMem, acctC, txB1, acctC2, txInit]

theorem acctC2_reachable : Reachable acctC2 :=
  Reachable.step acctC (Op.buy "AAPL" 1 (some 4) none 1 "b1") txB1 acctC2
    acctC_reachable acctC2_step

theorem acctS_step :
    applyOp acctC2 (Op.sell "AAPL" 1 (some 0) none 2 "s1") = (Except.ok txS1, acctS) := by
  norm_num [applyOp, Account.sell, Account.record_transaction, dictSet, dictGet,
    dictMem, dictPop, acctC2, txS1, acctS, txInit, txB1]

theorem txMatches_eq_specTxMatch (start stop : Option Int)
    (type_filter symbol_filter : Option String) (tx : Transaction) :
    txMatches start stop type_filter symbol_filter tx
      = specTxMatch start stop type_filter symbol_filter tx := by
  unfold txMatches specTxMatch
  cases start <;> cases stop <;> cases type_filter <;> cases symbol_filter <;>
    simp [Option.all]

/-! ## Claim theorems -/

/-- C1: on every reachable account state the cash balance is non-negative;
a `withdraw` that would overdraw (given a non-negative balance) is rejected
with `InsufficientFunds` and leaves the account unchanged, and a `buy` whose
resolved cost exceeds the cash balance is rejected with `InsufficientFunds`
and leaves the account unchanged. -/
theorem cash_nonneg_and_insufficient_funds_rejection :
    (∀ a, Reachable a → 0 ≤ a.cash_balance) ∧
    (∀ (a : Account) (amount : ℚ) (note : Option String) (t : Int) (txid : String),
      0 ≤ a.cash_balance →
      a.cash_balance - amount < 0 →
      a.withdraw amount note t txid = (Except.error Err.insufficientFunds, a)) ∧
    (∀ (a : Account) (symbol : String) (quantity : Int) (price : Option ℚ) (ep : ℚ)
      (note : Option String) (t : Int) (txid : String), 0 < quantity →
      (price = some ep ∨ (price = none ∧ get_share_price symbol = Except.ok ep)) →
      0 ≤ ep → a.cash_balance - ep * (quantity : ℚ) < 0 →
      a.buy symbol quantity price note t txid
        = (Except.error Err.insufficientFunds, a)) := by
  refine ⟨fun a h => (reachable_inv a h).1, ?_, ?_⟩
  · intro a amount note t txid h0 hover
    exact withdraw_insufficient a amount note t txid h0 hover
  · intro a symbol quantity price ep note t txid hq hres hep hf
    rw [buy_resolved_price a symbol quantity price ep note t txid hres]
    exact buy_some_insufficient a symbol quantity ep note t txid hq hep hf

/-- Witness for C1 at concrete inputs. -/
theorem cash_nonneg_and_insufficient_funds_rejection_witness :
    0 ≤ acct0.cash_balance ∧
    Account.withdraw acct0 5 none 0 "w" = (Except.error Err.insufficientFunds, acct0) ∧
    Account.buy acct0 "AAPL" 1 (some 3) none 0 "b"
      = (Except.error Err.insufficientFunds, acct0) :=
  ⟨cash_nonneg_and_insufficient_funds_rejection.1 acct0 acct0_reachable,
   cash_nonneg_and_insufficient_funds_rejection.2.1 acct0 5 none 0 "w"
     (by norm_num [acct0]) (by norm_num [acct0]),
   cash_nonneg_and_insufficient_funds_rejection.2.2 acct0 "AAPL" 1 (some 3) 3
     none 0 "b" (by norm_num) (Or.inl rfl) (by norm_num) (by norm_num [acct0])⟩

/-- C2: a mutating operation that fails with any error leaves the account
exactly as it was (no transaction appended, no balance, holdings or baseline
change), and one that succeeds appends exactly the returned transaction to
the log. -/
theorem failed_ops_no_side_effects_success_appends_one :
    ∀ a op r a', applyOp a op = (r, a') →
      (∀ e, r = Except.error e → a' = a) ∧
      (∀ tx, r = Except.ok tx → a'.transactions = a.transactions ++ [tx]) :=
  fun a op r a' h => applyOp_effects a op r a' h

/-- Witness for C2: a failing withdraw leaves `acct0` unchanged and a
successful deposit appends exactly one transaction. -/
theorem failed_ops_no_side_effects_success_appends_one_witness :
    acct0 = acct0 ∧ acct5.transactions = acct0.transactions ++ [tx5] :=
  ⟨(failed_ops_no_side_effects_success_appends_one acct0 (Op.withdraw 5 none 0 "w")
      (Except.error Err.insufficientFunds) acct0
      (by norm_num [applyOp, Account.withdraw, acct0])).1 Err.insufficientFunds rfl,
   (failed_ops_no_side_effects_success_appends_one acct0 (Op.deposit 5 none 0 "d")
      (Except.ok tx5) acct5
      (by norm_num [applyOp, Account.deposit, Account.record_transaction,
        countDeposits, acct0, tx5, acct5])).2 tx5 rfl⟩

/-- C3: on every reachable account state every holdings entry is strictly
positive; a successful sell that brings a holding exactly to zero removes
the symbol's entry entirely; and a sell of more than the held quantity
(holdings being non-negative) is rejected with `InsufficientShares`,
leaving the account unchanged. -/
theorem holdings_positive_and_insufficient_shares_rejection :
    (∀ a, Reachable a → ∀ p ∈ a.holdings, 0 < p.2) ∧
    (∀ (a : Account) (symbol : String) (quantity : Int) (price : Option ℚ)
      (note : Option String) (t : Int) (txid : String) (tx : Transaction) (a' : Account),
      a.sell symbol quantity price note t txid = (Except.ok tx, a') →
      dictGet a.holdings symbol = quantity →
      dictMem a'.holdings symbol = false) ∧
    (∀ (a : Account) (symbol : String) (quantity : Int) (price : Option ℚ)
      (note : Option String) (t : Int) (txid : String),
      0 ≤ dictGet a.holdings symbol → dictGet a.holdings symbol < quantity →
      a.sell symbol quantity price note t txid
        = (Except.error Err.insufficientShares, a)) := by
  refine ⟨fun a h => (reachable_inv a h).2.1, ?_, ?_⟩
  · intro a symbol quantity price note t txid tx a' h hg
    rw [sell_ok_holdings a symbol quantity price note t txid tx a' h,
      if_pos (by omega : dictGet a.holdings symbol - quantity = 0)]
    exact dictMem_dictPop_self a.holdings symbol
  · intro a symbol quantity price note t txid h0 hover
    exact sell_oversell a symbol quantity price note t txid h0 hover

/-- Witness for C3: the reachable state `acctC2` holds one positive AAPL
entry; selling it down to zero removes the entry; overselling on `acct0`
is rejected. -/
theorem holdings_positive_and_insufficient_shares_rejection_witness :
    (0 : Int) < 1 ∧
    dictMem acctS.holdings "AAPL" = false ∧
    Account.sell acct0 "AAPL" 1 none none 0 "s"
      = (Except.error Err.insufficientShares, acct0) :=
  ⟨holdings_positive_and_insufficient_shares_rejection.1 acctC2 acctC2_reachable
      ("AAPL", 1) (by simp [acctC2]),
   holdings_positive_and_insufficient_shares_rejection.2.1 acctC2 "AAPL" 1
      (some 0) none 2 "s1" txS1 acctS
      (by norm_num [Account.sell, Account.record_transaction, dictSet, dictGet,
        dictMem, dictPop, acctC2, txS1, acctS, txInit, txB1])
      (by rfl),
   holdings_positive_and_insufficient_shares_rejection.2.2 acct0 "AAPL" 1 none
      none 0 "s" (by rfl) (by norm_num [acct0, dictGet])⟩

/-- C4: the profit/loss baseline is set at most once — the constructor sets
it to its (validated, non-negative) initial deposit argument; a successful
deposit sets it exactly when the baseline is still 0 and, after recording,
the count of deposit-kind transactions is 1, and otherwise leaves it alone;
no non-deposit operation ever changes it; and a deposit on an account whose
baseline is already non-zero (e.g. constructor-funded) never resets it. -/
theorem initial_deposit_set_at_most_once :
    (∀ (id : String) (owner : Option String) (dep : ℚ) (t : Int) (txid : String)
      (a : Account), Account.create id owner dep t txid = Except.ok a →
      a.initial_deposit = dep) ∧
    (∀ (a : Account) (amount : ℚ) (note : Option String) (t : Int) (txid : String)
      (tx : Transaction) (a' : Account),
      a.deposit amount note t txid = (Except.ok tx, a') →
      ((a.initial_deposit = 0 ∧ countDeposits a' = 1 → a'.initial_deposit = amount) ∧
       (¬(a.initial_deposit = 0 ∧ countDeposits a' = 1) →
        a'.initial_deposit = a.initial_deposit))) ∧
    (∀ (a : Account) (op : Op) (r : Except Err Transaction) (a' : Account),
      applyOp a op = (r, a') →
      (∀ (amount : ℚ) (note : Option String) (t : Int) (txid : String),
        op ≠ Op.deposit amount note t txid) →
      a'.initial_deposit = a.initial_deposit) ∧
    (∀ (a : Account) (amount : ℚ) (note : Option String) (t : Int) (txid : String)
      (tx : Transaction) (a' : Account), a.initial_deposit ≠ 0 →
      a.deposit amount note t txid = (Except.ok tx, a') →
      a'.initial_deposit = a.initial_deposit) := by
  refine ⟨?_, ?_, ?_, ?_⟩
  · intro id owner dep t txid a h
    exact create_initial_deposit id owner dep t txid a h
  · intro a amount note t txid tx a' h
    exact deposit_initial_deposit a amount note t txid tx a' h
  · intro a op r a' h hne
    cases op with
    | deposit amount note t txid => exact absurd rfl (hne amount note t txid)
    | withdraw amount note t txid =>
      exact withdraw_initial_deposit a amount note t txid r a' h
    | buy symbol quantity price note t txid =>
      exact buy_initial_deposit a symbol quantity price note t txid r a' h
    | sell symbol quantity price note t txid =>
      exact sell_initial_deposit a symbol quantity price note t txid r a' h
  · intro a amount note t txid tx a' hnz h
    exact (deposit_initial_deposit a amount note t txid tx a' h).2
      (fun hc => hnz hc.1)

/-- Witness for C4: the constructor sets the baseline of `acctC` to 10, the
first deposit on an empty account sets it to 5, a buy leaves it unchanged,
and a deposit on the constructor-funded `acctC2` does not reset it. -/
theorem initial_deposit_set_at_most_once_witness :
    acctC.initial_deposit = 10 ∧
    acct5.initial_deposit = 5 ∧
    acctC2.initial_deposit = acctC.initial_deposit :=
  ⟨initial_deposit_set_at_most_once.1 "acct" none 10 0 "i" acctC acctC_create,
   (initial_deposit_set_at_most_once.2.1 acct0 5 none 0 "d" tx5 acct5
      (by norm_num [Account.deposit, Account.record_transaction, countDeposits,
        acct0, tx5, acct5])).1
      (by constructor
          · norm_num [acct0]
          · norm_num [countDeposits, acct5, tx5]),
   initial_deposit_set_at_most_once.2.2.1 acctC
      (Op.buy "AAPL" 1 (some 4) none 1 "b1") (Except.ok txB1) acctC2 acctC2_step
      (fun amount note t txid h => by simp at h)⟩

/-- C5: full behaviour of `buy(symbol, quantity, price?)`: non-positive
quantity is rejected with `InvalidTransaction`; with no caller price the
oracle's failure is propagated unchanged; once the execution price is
resolved (caller-supplied, or the oracle's answer), a negative price is
rejected with `InvalidTransaction`, a cost exceeding the cash balance is
rejected with `InsufficientFunds`, and otherwise the buy succeeds: cash
drops by `price × quantity`, the holding grows by `quantity` (created if
absent) and the recorded transaction carries `cashDelta = -cost` and
`holdingsDelta = {symbol: +quantity}`. -/
theorem buy_full_spec :
    ∀ (a : Account) (symbol : String) (quantity : Int) (price : Option ℚ)
      (note : Option String) (t : Int) (txid : String),
    (quantity ≤ 0 →
      a.buy symbol quantity price note t txid
        = (Except.error Err.invalidTransaction, a)) ∧
    (∀ e, 0 < quantity → price = none → get_share_price symbol = Except.error e →
      a.buy symbol quantity price note t txid = (Except.error e, a)) ∧
    (∀ ep, 0 < quantity →
      (price = some ep ∨ (price = none ∧ get_share_price symbol = Except.ok ep)) →
      ((ep < 0 →
        a.buy symbol quantity price note t txid
          = (Except.error Err.invalidTransaction, a)) ∧
       (0 ≤ ep → a.cash_balance - ep * (quantity : ℚ) < 0 →
        a.buy symbol quantity price note t txid
          = (Except.error Err.insufficientFunds, a)) ∧
       (0 ≤ ep → 0 ≤ a.cash_balance - ep * (quantity : ℚ) →
        ∃ tx a', a.buy symbol quantity price note t txid = (Except.ok tx, a') ∧
          a'.cash_balance = a.cash_balance - ep * (quantity : ℚ) ∧
          dictGet a'.holdings symbol = dictGet a.holdings symbol + quantity ∧
          tx.cash_delta = -(ep * (quantity : ℚ)) ∧
          tx.holdings_delta = [(symbol, quantity)]))) := by
  intro a symbol quantity price note t txid
  refine ⟨?_, ?_, ?_⟩
  · intro hq
    exact buy_quantity_nonpos a symbol quantity price note t txid hq
  · intro e hq hnone herr
    subst hnone
    exact buy_oracle_error a symbol quantity note t txid e hq herr
  · intro ep hq hres
    have hrw := buy_resolved_price a symbol quantity price ep note t txid hres
    refine ⟨?_, ?_, ?_⟩
    · intro hep
      rw [hrw]
      exact buy_some_invalid_price a symbol quantity ep note t txid hq hep
    · intro hep hf
      rw [hrw]
      exact buy_some_insufficient a symbol quantity ep note t txid hq hep hf
    · intro hep hf
      obtain ⟨tx, a', heq, hcash, hhold, htr, hini, hid, how, hty, hsy, hqty,
        hpr, hcd, hhd, hnote, hts, htid⟩ :=
        buy_some_success a symbol quantity ep note t txid hq hep hf
      refine ⟨tx, a', ?_, hcash, ?_, hcd, hhd⟩
      · rw [hrw]
        exact heq
      · rw [hhold, dictGet_dictSet_self]

/-- Witness for C5: each branch of the buy contract at concrete inputs. -/
theorem buy_full_spec_witness :
    Account.buy acct0 "AAPL" 0 none none 0 "b"
      = (Except.error Err.invalidTransaction, acct0) ∧
    Account.buy acct0 "MSFT" 1 none none 0 "b"
      = (Except.error Err.unknownSymbol, acct0) ∧
    Account.buy acct0 "AAPL" 1 (some (-1)) none 0 "b"
      = (Except.error Err.invalidTransaction, acct0) ∧
    Account.buy acct0 "AAPL" 1 (some 3) none 0 "b"
      = (Except.error Err.insufficientFunds, acct0) ∧
    (∃ tx a', Account.buy acct10 "AAPL" 2 (some 3) none 0 "b" = (Except.ok tx, a') ∧
      a'.cash_balance = acct10.cash_balance - 3 * ((2 : Int) : ℚ) ∧
      dictGet a'.holdings "AAPL" = dictGet acct10.holdings "AAPL" + 2 ∧
      tx.cash_delta = -(3 * ((2 : Int) : ℚ)) ∧
      tx.holdings_delta = [("AAPL", 2)]) :=
  ⟨(buy_full_spec acct0 "AAPL" 0 none none 0 "b").1 (by norm_num),
   (buy_full_spec acct0 "MSFT" 1 none none 0 "b").2.1 Err.unknownSymbol
     (by norm_num) rfl (by rfl),
   ((buy_full_spec acct0 "AAPL" 1 (some (-1)) none 0 "b").2.2 (-1)
     (by norm_num) (Or.inl rfl)).1 (by norm_num),
   ((buy_full_spec acct0 "AAPL" 1 (some 3) none 0 "b").2.2 3
     (by norm_num) (Or.inl rfl)).2.1 (by norm_num) (by norm_num [acct0]),
   ((buy_full_spec acct10 "AAPL" 2 (some 3) none 0 "b").2.2 3
     (by norm_num) (Or.inl rfl)).2.2 (by norm_num) (by norm_num [acct10])⟩

/-- C6: `listTransactions` rejects a range with `start > end` with
`InvalidTransaction`; otherwise it returns exactly the subsequence of the
stored transactions, in original order, matching the spec's filter: timestamp
within `[start, end]` inclusive, kind equal to the type filter and symbol
equal to the symbol filter, each when given (so symbol-less deposit/withdraw
records never match a symbol filter). -/
theorem list_transactions_spec :
    ∀ (a : Account) (start stop : Option Int) (tf sf : Option String),
    (∀ s e, start = some s → stop = some e → e < s →
      a.list_transactions start stop tf sf = Except.error Err.invalidTransaction) ∧
    (∀ l, a.list_transactions start stop tf sf = Except.ok l →
      l = a.transactions.filter (specTxMatch start stop tf sf) ∧
      l.Sublist a.transactions ∧
      (∀ tx, tx ∈ l ↔ tx ∈ a.transactions ∧ specTxMatch start stop tf sf tx = true)) := by
  intro a start stop tf sf
  constructor
  · intro s e hs he hlt
    subst hs; subst he
    unfold Account.list_transactions
    rw [if_pos (by simp [hlt])]
  · intro l hl
    unfold Account.list_transactions at hl
    split at hl
    · exact absurd hl (by simp)
    · have hfun : txMatches start stop tf sf = specTxMatch start stop tf sf :=
        funext (txMatches_eq_specTxMatch start stop tf sf)
      rw [hfun] at hl
      have hl' := Except.ok.inj hl
      subst hl'
      refine ⟨rfl, List.filter_sublist _, fun tx => ?_⟩
      exact List.mem_filter

/-- Witness for C6 on the two-transaction account `acctT`. -/
theorem list_transactions_spec_witness :
    ([txB] : List Transaction)
      = acctT.transactions.filter (specTxMatch none none none (some "AAPL")) ∧
    ([txB] : List Transaction).Sublist acctT.transactions ∧
    acctT.list_transactions (some 5) (some 3) none none
      = Except.error Err.invalidTransaction :=
  ⟨((list_transactions_spec acctT none none none (some "AAPL")).2 [txB] (by rfl)).1,
   ((list_transactions_spec acctT none none none (some "AAPL")).2 [txB] (by rfl)).2.1,
   (list_transactions_spec acctT (some 5) (some 3) none none).1 5 3 rfl rfl
     (by norm_num)⟩

/-- C7: with a price oracle that prices every held symbol,
`getPortfolioValue` is the sum of `price(symbol) × quantity` over the
holdings, `getTotalBalance` adds the cash balance, and `getProfitLoss`
subtracts the baseline; an oracle failure surfaces as the returned error
and comes from some held symbol; omitting the oracle uses the default
`get_share_price`. -/
theorem valuation_spec :
    ∀ (a : Account) (provider : String → Except Err ℚ),
    (∀ f : String → ℚ, (∀ p ∈ a.holdings, provider p.1 = Except.ok (f p.1)) →
      a.get_portfolio_value (some provider)
        = Except.ok ((a.holdings.map (fun p => f p.1 * (p.2 : ℚ))).sum) ∧
      a.get_total_balance (some provider)
        = Except.ok (a.cash_balance
            + (a.holdings.map (fun p => f p.1 * (p.2 : ℚ))).sum) ∧
      a.get_profit_loss (some provider)
        = Except.ok (a.cash_balance
            + (a.holdings.map (fun p => f p.1 * (p.2 : ℚ))).sum
            - a.initial_deposit)) ∧
    (∀ e, a.get_portfolio_value (some provider) = Except.error e →
      ∃ p ∈ a.holdings, provider p.1 = Except.error e) ∧
    a.get_portfolio_value none = a.get_portfolio_value (some get_share_price) := by
  intro a provider
  refine ⟨?_, ?_, rfl⟩
  · intro f hall
    have h1 : a.get_portfolio_value (some provider)
        = Except.ok ((a.holdings.map (fun p => f p.1 * (p.2 : ℚ))).sum) := by
      unfold Account.get_portfolio_value
      simp only []
      rw [portfolioLoop_ok_sum provider f a.holdings hall 0, zero_add]
    refine ⟨h1, ?_, ?_⟩
    · unfold Account.get_total_balance
      rw [h1]
    · unfold Account.get_profit_loss Account.get_total_balance
      rw [h1]
  · intro e he
    unfold Account.get_portfolio_value at he
    simp only [] at he
    exact portfolioLoop_error_source provider a.holdings e 0 he

/-- Witness for C7 on `acctT` with the constant oracle `provC`. -/
theorem valuation_spec_witness :
    acctT.get_portfolio_value (some provC)
      = Except.ok ((acctT.holdings.map (fun p => provF p.1 * (p.2 : ℚ))).sum) ∧
    acctT.get_total_balance (some provC)
      = Except.ok (acctT.cash_balance
          + (acctT.holdings.map (fun p => provF p.1 * (p.2 : ℚ))).sum) ∧
    acctT.get_profit_loss (some provC)
      = Except.ok (acctT.cash_balance
          + (acctT.holdings.map (fun p => provF p.1 * (p.2 : ℚ))).sum
          - acctT.initial_deposit) ∧
    acctT.get_portfolio_value none
      = acctT.get_portfolio_value (some get_share_price) :=
  ⟨((valuation_spec acctT provC).1 provF (fun _ _ => rfl)).1,
   ((valuation_spec acctT provC).1 provF (fun _ _ => rfl)).2.1,
   ((valuation_spec acctT provC).1 provF (fun _ _ => rfl)).2.2,
   (valuation_spec acctT provC).2.2⟩

/-- C9: every reachable account state is exactly the aggregation of its
transaction log: cash equals the sum of `cashDelta` over the log, each held
quantity equals the per-symbol sum of `holdingsDelta` over the log, and a
symbol appears in the holdings map exactly when that aggregate is
non-zero. -/
theorem state_is_log_aggregation :
    ∀ a : Account, Reachable a →
      a.cash_balance = txSum a.transactions ∧
      (∀ sym, dictGet a.holdings sym = txHoldSum a.transactions sym) ∧
      (∀ sym, dictMem a.holdings sym = true ↔ txHoldSum a.transactions sym ≠ 0) := by
  intro a h
  obtain ⟨h1, h2, h3, h4⟩ := reachable_inv a h
  refine ⟨h3, h4, fun sym => ?_⟩
  rw [← h4 sym]
  exact dictMem_eq_true_iff_dictGet_ne_zero a.holdings sym h2

/-- Witness for C9 on the reachable state `acctC2`. -/
theorem state_is_log_aggregation_witness :
    acctC2.cash_balance = txSum acctC2.transactions ∧
    dictGet acctC2.holdings "AAPL" = txHoldSum acctC2.transactions "AAPL" ∧
    (dictMem acctC2.holdings "AAPL" = true
      ↔ txHoldSum acctC2.transactions "AAPL" ≠ 0) :=
  ⟨(state_is_log_aggregation acctC2 acctC2_reachable).1,
   (state_is_log_aggregation acctC2 acctC2_reachable).2.1 "AAPL",
   (state_is_log_aggregation acctC2 acctC2_reachable).2.2 "AAPL"⟩

/-- C10: buying a symbol the default oracle does not recognize, at a
caller-supplied non-negative price with sufficient cash, succeeds and puts
the symbol into the holdings; every subsequent default-oracle valuation
(`getPortfolioValue`, `getTotalBalance`, `getProfitLoss`, `statement`)
then fails with `UnknownSymbol`. -/
theorem unknown_symbol_buy_then_default_valuation_fails :
    ∀ (a : Account) (symbol : String) (quantity : Int) (p : ℚ)
      (note : Option String) (t : Int) (txid : String),
      symbol ≠ "AAPL" → symbol ≠ "TSLA" → symbol ≠ "GOOGL" →
      0 < quantity → 0 ≤ p → 0 ≤ a.cash_balance - p * (quantity : ℚ) →
      ∃ tx a', a.buy symbol quantity (some p) note t txid = (Except.ok tx, a') ∧
        dictMem a'.holdings symbol = true ∧
        a'.get_portfolio_value none = Except.error Err.unknownSymbol ∧
        a'.get_total_balance none = Except.error Err.unknownSymbol ∧
        a'.get_profit_loss none = Except.error Err.unknownSymbol ∧
        a'.statement none = Except.error Err.unknownSymbol := by
  intro a symbol quantity p note t txid h1 h2 h3 hq hp hf
  obtain ⟨tx, a', heq, hcash, hhold, htr, hini, hid, how, hty, hsy, hqty,
    hpr, hcd, hhd, hnote, hts, htid⟩ :=
    buy_some_success a symbol quantity p note t txid hq hp hf
  have hunk := get_share_price_unknown symbol h1 h2 h3
  have hmem : dictMem a'.holdings symbol = true := by
    rw [hhold]
    exact dictMem_dictSet_self a.holdings symbol (dictGet a.holdings symbol + quantity)
  have hpv := portfolio_default_error_of_unknown_member a' symbol hmem hunk
  exact ⟨tx, a', heq, hmem, hpv,
    total_balance_error a' none Err.unknownSymbol hpv,
    profit_loss_error a' none Err.unknownSymbol hpv,
    statement_error a' none Err.unknownSymbol hpv⟩

/-- Witness for C10: buying the unrecognized symbol MSFT on `acct10`. -/
theorem unknown_symbol_buy_then_default_valuation_fails_witness :
    ∃ tx a', Account.buy acct10 "MSFT" 1 (some 3) none 0 "b" = (Except.ok tx, a') ∧
      dictMem a'.holdings "MSFT" = true ∧
      a'.get_portfolio_value none = Except.error Err.unknownSymbol ∧
      a'.get_total_balance none = Except.error Err.unknownSymbol ∧
      a'.get_profit_loss none = Except.error Err.unknownSymbol ∧
      a'.statement none = Except.error Err.unknownSymbol :=
  unknown_symbol_buy_then_default_valuation_fails acct10 "MSFT" 1 3 none 0 "b"
    (by decide) (by decide) (by decide) (by decide) (by norm_num)
    (by norm_num [acct10])
